import Mathlib

/-!
# Verification of the ChaosLimba MCP server's analytics core

Shallow embedding of the Pedagogical Graph & Coverage Analytics Engine:
the CEFR banding utility (`difficultyToCefr`), the prerequisite graph
resolver (`buildTree` inside `cl_get_prerequisite_chain`), the coverage
reconciliation engine (`cl_coverage_report`) and the stratified content
sampler (the stratified SQL branch of `cl_get_content`).

JS numbers are embedded as rationals; where the code's IEEE-754 double
arithmetic is observable (the coverage percentage), binary64 rounding is
modelled exactly over integer numerator/denominator pairs.
-/

set_option maxRecDepth 100000

namespace ChaosLimba

/-! ## CEFR banding utility (shared types module) -/

/-- CEFR proficiency level, the `CefrLevel` union type of the shared types
module. -/
inductive CefrLevel where
  | A1 | A2 | B1 | B2 | C1 | C2
deriving DecidableEq, Repr

open CefrLevel

/-- The `CEFR_LEVELS` array of the shared types module. -/
def CEFR_LEVELS : List CefrLevel := [A1, A2, B1, B2, C1, C2]

/-- `difficultyToCefr` from the shared types module: fixed upper-bound
thresholds on the difficulty score.  Scores are modelled as rationals
(every JS double is a rational and the comparisons are exact). -/
def difficultyToCefr (difficulty : ℚ) : CefrLevel :=
  if difficulty ≤ 2 then A1
  else if difficulty ≤ 7/2 then A2
  else if difficulty ≤ 5 then B1
  else if difficulty ≤ 7 then B2
  else if difficulty ≤ 9 then C1
  else C2

/-! ## Prerequisite graph resolver (`cl_get_prerequisite_chain`) -/

/-- One row of `grammar_feature_map` as fetched by
`cl_get_prerequisite_chain`: `feature_key`, `feature_name`, `cefr_level`,
`prerequisites` (a nullable array). -/
structure GrammarFeature where
  feature_key : String
  feature_name : String
  cefr_level : String
  prerequisites : Option (List String)
deriving DecidableEq, Repr

/-- Lookup in the in-memory `featureMap`
(`new Map(result.rows.map(r => [r.feature_key, r]))`): a JS `Map` built
from an entry list keeps the **last** binding of a duplicated key, which a
left fold reproduces. -/
def featureLookup (rows : List GrammarFeature) (key : String) :
    Option GrammarFeature :=
  rows.foldl (fun acc r => if r.feature_key = key then some r else acc) none

/-- The `PrereqNode` tree produced by `buildTree`. -/
inductive PrereqNode where
  | mk (feature_key feature_name cefr_level : String)
       (prerequisites : List PrereqNode)
deriving Repr

/-- Root key of a `PrereqNode`. -/
def PrereqNode.key : PrereqNode → String
  | .mk k _ _ _ => k

/-- Name of a `PrereqNode`. -/
def PrereqNode.name : PrereqNode → String
  | .mk _ n _ _ => n

/-- Band of a `PrereqNode`. -/
def PrereqNode.level : PrereqNode → String
  | .mk _ _ l _ => l

/-- Children of a `PrereqNode`. -/
def PrereqNode.children : PrereqNode → List PrereqNode
  | .mk _ _ _ cs => cs

/-- `buildTree(key, depth, visited)` from `cl_get_prerequisite_chain`,
with an explicit fuel argument so the recursion is structural (the TS
recursion is bounded by the depth cap: a call at depth `d` only recurses
at `d + 1`, and every call with `depth > 10` returns immediately, so with
`fuel > 11 - depth` the `fuel = 0` branch is unreachable — proved below as
fuel irrelevance).  The mutable `visited : Set<string>` is threaded
explicitly: each child call receives the set its elder siblings left. -/
def buildTreeFuel (fm : List GrammarFeature) :
    ℕ → String → ℕ → List String → Option PrereqNode × List String
  | 0, _, _, visited => (none, visited)
  | fuel+1, key, depth, visited =>
    if depth > 10 ∨ key ∈ visited then (none, visited)
    else
      let visited' := key :: visited
      match featureLookup fm key with
      | none =>
          (some (.mk key "(not found in grammar_feature_map)" "unknown" []),
           visited')
      | some f =>
          let res := (f.prerequisites.getD []).foldl
            (fun (acc : List PrereqNode × List String) prereqKey =>
              match buildTreeFuel fm fuel prereqKey (depth + 1) acc.2 with
              | (some child, v') => (acc.1 ++ [child], v')
              | (none, v') => (acc.1, v'))
            ([], visited')
          (some (.mk f.feature_key f.feature_name f.cefr_level res.1), res.2)

/-- The tool's actual traversal: `buildTree(featureKey, 0, new Set())`.
Fuel 12 exceeds the maximum recursion depth 11 forced by the depth cap. -/
def resolve (fm : List GrammarFeature) (featureKey : String) :
    Option PrereqNode :=
  (buildTreeFuel fm 12 featureKey 0 []).1

/-- The tool's response framing: the not-found error is produced exactly
when `buildTree` returned null, otherwise the tree is returned. -/
def cl_get_prerequisite_chain (fm : List GrammarFeature)
    (featureKey : String) : Except String PrereqNode :=
  match resolve fm featureKey with
  | none => .error (String.append (String.append "Feature \x22" featureKey)
      "\x22 not found in grammar_feature_map.")
  | some tree => .ok tree

/-- Height of a prerequisite tree (number of levels below the root), with a
fuel argument so the recursion over the nested inductive is structural.
Any fuel at least the tree's actual depth gives the exact height. -/
def PrereqNode.heightFuel : ℕ → PrereqNode → ℕ
  | 0, _ => 0
  | fuel+1, .mk _ _ _ cs => cs.foldl (fun acc c => max acc (c.heightFuel fuel + 1)) 0

/-! ## Exact binary64 arithmetic model

`cl_coverage_report` computes its percentage in JS doubles:
`Math.round(((totalFeatures - gaps) / totalFeatures) * 100)`.  The two
IEEE-754 roundings (after the division and after the multiplication by
the exactly representable 100) are modelled exactly: a nonnegative double
value is an exact rational `num / den` with `den` a power of two, and
each operation rounds the exact rational result to 53 significant bits,
ties to even.  Overflow and subnormals cannot occur for the ratios this
code produces (they lie in `[1/total, 100]` for feature counts far below
`2^1022`) and are not modelled. -/

/-- `⌊log₂ n⌋` by repeated halving, with a structural fuel argument
(`fuel ≥ number of halvings` suffices, so `fuel = n` always does). -/
def log2Fuel : ℕ → ℕ → ℕ
  | 0, _ => 0
  | fuel+1, n => if n < 2 then 0 else log2Fuel fuel (n / 2) + 1

/-- `⌊log₂ n⌋` (0 at 0). -/
def log2n (n : ℕ) : ℕ := log2Fuel n n

/-- Decides `2 ^ g ≤ a / b` for positive naturals by cross multiplication. -/
def pow2LeDiv (g : ℤ) (a b : ℕ) : Bool :=
  if 0 ≤ g then decide (b * 2 ^ g.toNat ≤ a) else decide (b ≤ a * 2 ^ (-g).toNat)

/-- `⌊log₂ (a / b)⌋` for positive naturals: the first guess
`⌊log₂ a⌋ - ⌊log₂ b⌋` is exact or one too high. -/
def ratLog2 (a b : ℕ) : ℤ :=
  let g : ℤ := (log2n a : ℤ) - (log2n b : ℤ)
  if pow2LeDiv g a b then g else g - 1

/-- Round the nonnegative rational `a / b` to the nearest IEEE-754
binary64 value (53-bit significand, ties to even), exactly, returning the
value as a pair `(num, den)` with `den` a power of two. -/
def flPair (a b : ℕ) : ℕ × ℕ :=
  if a = 0 ∨ b = 0 then (0, 1)
  else
    let e := ratLog2 a b
    let A := if e ≤ 52 then a * 2 ^ (52 - e).toNat else a
    let B := if e ≤ 52 then b else b * 2 ^ (e - 52).toNat
    let n := A / B
    let r := A % B
    let m := if 2 * r < B then n
      else if B < 2 * r then n + 1
      else if n % 2 = 0 then n else n + 1
    if 52 ≤ e then (m * 2 ^ (e - 52).toNat, 1) else (m, 2 ^ (52 - e).toNat)

/-- `Math.round(((total - gaps) / total) * 100)` as the doubles compute
it: binary64 division, binary64 multiplication by 100, then rounding to
the nearest integer with halves toward `+∞`
(`⌊x + 1/2⌋ = (2 num + den) / (2 den)` for `x = num / den ≥ 0`). -/
def doublePercent (covered total : ℕ) : ℕ :=
  let p1 := flPair covered total
  let p2 := flPair (100 * p1.1) p1.2
  (2 * p2.1 + p2.2) / (2 * p2.2)

/-! ## Coverage reconciliation engine (`cl_coverage_report`) -/

/-- One row of the feature fetch in `cl_coverage_report`:
`SELECT feature_key, feature_name, cefr_level, category`. -/
structure FeatureRow where
  feature_key : String
  feature_name : String
  cefr_level : String
  category : String
deriving DecidableEq, Repr

/-- A `language_features` JSONB payload of one content row (the fetch uses
`WHERE language_features IS NOT NULL`, so the rows handed to the counting
loop are the non-null payloads): an optional `grammar` string array,
read as `row.language_features?.grammar ?? []`. -/
structure LanguageFeatures where
  grammar : Option (List String)
deriving DecidableEq, Repr

/-- The count the `featureCounts` map holds for `key` after the counting
loop: the loop increments once per occurrence of `key` in any payload's
`grammar` array, and `featureCounts.get(key) || 0` reads it back. -/
def featureCounts (contentRows : List LanguageFeatures) (key : String) : ℕ :=
  contentRows.foldl (fun acc row => acc + (row.grammar.getD []).count key) 0

/-- One row of the coverage report. -/
structure CoverageRow where
  feature_key : String
  feature_name : String
  cefr_level : String
  category : String
  content_count : ℕ
  is_gap : Bool
deriving DecidableEq, Repr

/-- `const cefrOrder = ['A1', 'A2', 'B1', 'B2', 'C1', 'C2']`. -/
def cefrOrder : List String := ["A1", "A2", "B1", "B2", "C1", "C2"]

/-- `cefrOrder.indexOf(level)`: the index of the first occurrence in the
fixed six-entry array, `-1` when absent — written out over the array's
entries. -/
def rankOf (level : String) : ℤ :=
  if level = "A1" then 0
  else if level = "A2" then 1
  else if level = "B1" then 2
  else if level = "B2" then 3
  else if level = "C1" then 4
  else if level = "C2" then 5
  else -1

/-- The comparator's sort key for a row: band rank, then content count. -/
def rowKey (r : CoverageRow) : ℤ × ℕ := (rankOf r.cefr_level, r.content_count)

/-- Lexicographic order on sort keys: the comparator
`levelDiff !== 0 ? levelDiff : a.content_count - b.content_count`
orders pairs exactly this way. -/
def keyLe (p q : ℤ × ℕ) : Prop := p.1 < q.1 ∨ (p.1 = q.1 ∧ p.2 ≤ q.2)

instance : DecidableRel keyLe := fun p q => by
  unfold keyLe; infer_instance

/-- The total preorder on report rows induced by the sort comparator. -/
def rowLe (a b : CoverageRow) : Prop := keyLe (rowKey a) (rowKey b)

instance : DecidableRel rowLe := fun a b => by
  unfold rowLe; infer_instance

instance : IsTotal CoverageRow rowLe :=
  ⟨fun a b => by unfold rowLe keyLe; omega⟩

instance : IsTrans CoverageRow rowLe :=
  ⟨fun a b c => by unfold rowLe keyLe; omega⟩

/-- The report row built for one feature (step 4 of `cl_coverage_report`). -/
def mkCoverageRow (contentRows : List LanguageFeatures) (f : FeatureRow) :
    CoverageRow :=
  let count := featureCounts contentRows f.feature_key
  ⟨f.feature_key, f.feature_name, f.cefr_level, f.category, count, count == 0⟩

/-- The unsorted report: one row per fetched feature, in fetch order. -/
def coverageRows (features : List FeatureRow)
    (contentRows : List LanguageFeatures) : List CoverageRow :=
  features.map (mkCoverageRow contentRows)

/-- Summary block of the report. -/
structure CoverageSummary where
  total_features : ℕ
  covered : ℕ
  gaps : ℕ
  coverage_percent : ℕ
deriving DecidableEq, Repr

/-- The full report payload. -/
structure CoverageReport where
  summary : CoverageSummary
  features : List CoverageRow
deriving DecidableEq, Repr

/-- `cl_coverage_report` on already-fetched inputs.  `report.sort(...)` is
JS's stable sort under a comparator that is a total preorder, so its
result is the unique stable order — reproduced by `List.insertionSort`.
The percentage is the double computation
`Math.round(((totalFeatures - gaps) / totalFeatures) * 100)`. -/
def cl_coverage_report (features : List FeatureRow)
    (contentRows : List LanguageFeatures) : CoverageReport :=
  let report := (coverageRows features contentRows).insertionSort rowLe
  let totalFeatures := report.length
  let gaps := (report.filter (fun r => r.is_gap)).length
  let covered := totalFeatures - gaps
  let percent : ℕ :=
    if totalFeatures > 0 then doublePercent covered totalFeatures else 0
  ⟨⟨totalFeatures, covered, gaps, percent⟩, report⟩

/-- The spec's definition of the percentage, in the spec's own words:
`round(100 * covered / total)` with round-half-up when `total > 0`, else
`0` — stated over exact rationals, for comparison with the code's double
computation. -/
def specCoveragePercent (covered total : ℕ) : ℕ :=
  if total = 0 then 0 else ⌊(100 * (covered : ℚ) / (total : ℚ)) + 1/2⌋₊

/-! ## Stratified content sampler (`cl_get_content`, no difficulty filter) -/

/-- A row of `content_items` as selected by `cl_get_content`.  Creation
timestamps are modelled as naturals; the SQL window orders by
`created_at`, whose ties Postgres leaves unspecified — modelled as input
row order (the claims below do not depend on tie order). -/
structure ContentItem where
  id : ℕ
  type : String
  title : String
  difficulty_level : ℚ
  topic : String
  duration_seconds : ℕ
  created_at : ℕ
deriving DecidableEq, Repr

/-- The band the SQL `CASE` expression assigns to a row — the same
thresholds as `difficultyToCefr`. -/
def bandOfItem (r : ContentItem) : CefrLevel := difficultyToCefr r.difficulty_level

/-- `ORDER BY created_at` inside the window. -/
def itemLeCreated (a b : ContentItem) : Prop := a.created_at ≤ b.created_at

instance : DecidableRel itemLeCreated := fun a b => by
  unfold itemLeCreated; infer_instance

instance : IsTotal ContentItem itemLeCreated :=
  ⟨fun a b => by unfold itemLeCreated; omega⟩

instance : IsTrans ContentItem itemLeCreated :=
  ⟨fun a b c => by unfold itemLeCreated; omega⟩

/-- The final `ORDER BY difficulty_level, created_at`. -/
def itemLeDiffCreated (a b : ContentItem) : Prop :=
  a.difficulty_level < b.difficulty_level ∨
    (a.difficulty_level = b.difficulty_level ∧ a.created_at ≤ b.created_at)

instance : DecidableRel itemLeDiffCreated := fun a b => by
  unfold itemLeDiffCreated; infer_instance

instance : IsTotal ContentItem itemLeDiffCreated :=
  ⟨fun a b => by
    unfold itemLeDiffCreated
    rcases lt_trichotomy a.difficulty_level b.difficulty_level with h | h | h
    · exact Or.inl (Or.inl h)
    · rcases Nat.le_total a.created_at b.created_at with hc | hc
      · exact Or.inl (Or.inr ⟨h, hc⟩)
      · exact Or.inr (Or.inr ⟨h.symm, hc⟩)
    · exact Or.inr (Or.inl h)⟩

instance : IsTrans ContentItem itemLeDiffCreated :=
  ⟨fun a b c hab hbc => by
    unfold itemLeDiffCreated at *
    rcases hab with h | ⟨he, h⟩ <;> rcases hbc with h' | ⟨he', h'⟩
    · exact Or.inl (h.trans h')
    · exact Or.inl (he' ▸ h)
    · exact Or.inl (he ▸ h')
    · exact Or.inr ⟨he.trans he', h.trans h'⟩⟩

/-- The stratified branch of `cl_get_content` (no `difficultyLevel`
filter), applied to the candidate rows left by the `WHERE` clause:
`ROW_NUMBER() OVER (PARTITION BY <band CASE> ORDER BY created_at)`
filtered to `rn <= ceil(limit / 6)`, then
`ORDER BY difficulty_level, created_at`.  Keeping the rows with
`rn ≤ cap` of a partition is taking the first `cap` of that partition
sorted by `created_at`. -/
def stratifiedSample (rows : List ContentItem) (limit : ℕ) : List ContentItem :=
  let cap := (limit + 5) / 6
  let surviving := (CEFR_LEVELS.map (fun b =>
    ((rows.filter (fun r => bandOfItem r == b)).insertionSort itemLeCreated).take cap)).flatten
  surviving.insertionSort itemLeDiffCreated

/-! ## Concrete instances used by the claims -/

/-- The two-feature cycle `{A: prereqs=[B], B: prereqs=[A]}`. -/
def cycleTable : List GrammarFeature :=
  [⟨"A", "Feature A", "A1", some ["B"]⟩,
   ⟨"B", "Feature B", "A2", some ["A"]⟩]

/-- A linear chain of 15 features, each requiring the next. -/
def chain15Table : List GrammarFeature :=
  [⟨"f0", "Feature 0", "A1", some ["f1"]⟩,
   ⟨"f1", "Feature 1", "A1", some ["f2"]⟩,
   ⟨"f2", "Feature 2", "A1", some ["f3"]⟩,
   ⟨"f3", "Feature 3", "A1", some ["f4"]⟩,
   ⟨"f4", "Feature 4", "A1", some ["f5"]⟩,
   ⟨"f5", "Feature 5", "A1", some ["f6"]⟩,
   ⟨"f6", "Feature 6", "A1", some ["f7"]⟩,
   ⟨"f7", "Feature 7", "A1", some ["f8"]⟩,
   ⟨"f8", "Feature 8", "A1", some ["f9"]⟩,
   ⟨"f9", "Feature 9", "A1", some ["f10"]⟩,
   ⟨"f10", "Feature 10", "A1", some ["f11"]⟩,
   ⟨"f11", "Feature 11", "A1", some ["f12"]⟩,
   ⟨"f12", "Feature 12", "A1", some ["f13"]⟩,
   ⟨"f13", "Feature 13", "A1", some ["f14"]⟩,
   ⟨"f14", "Feature 14", "A1", some []⟩]

/-- The tree `resolve chain15Table "f0"` produces: the chain cut off after
`f10`, the node at depth 10. -/
def c3Tree : PrereqNode :=
  .mk "f0" "Feature 0" "A1"
    [.mk "f1" "Feature 1" "A1"
      [.mk "f2" "Feature 2" "A1"
        [.mk "f3" "Feature 3" "A1"
          [.mk "f4" "Feature 4" "A1"
            [.mk "f5" "Feature 5" "A1"
              [.mk "f6" "Feature 6" "A1"
                [.mk "f7" "Feature 7" "A1"
                  [.mk "f8" "Feature 8" "A1"
                    [.mk "f9" "Feature 9" "A1"
                      [.mk "f10" "Feature 10" "A1" []]]]]]]]]]]

/-- `{A: prereqs=["ghost"]}`: one feature with a dangling prerequisite. -/
def danglingTable : List GrammarFeature :=
  [⟨"A", "Feature A", "A1", some ["ghost"]⟩]

/-- Two features both referencing the dangling identifier `"ghost"`. -/
def doubleDanglingTable : List GrammarFeature :=
  [⟨"A", "Feature A", "A1", some ["ghost", "B"]⟩,
   ⟨"B", "Feature B", "A2", some ["ghost"]⟩]

/-- 40 features, all in band A1: the catalog of the percentage
counterexample. -/
def c6Features : List FeatureRow :=
  [⟨"k01", "F01", "A1", "cat"⟩, ⟨"k02", "F02", "A1", "cat"⟩,
   ⟨"k03", "F03", "A1", "cat"⟩, ⟨"k04", "F04", "A1", "cat"⟩,
   ⟨"k05", "F05", "A1", "cat"⟩, ⟨"k06", "F06", "A1", "cat"⟩,
   ⟨"k07", "F07", "A1", "cat"⟩, ⟨"k08", "F08", "A1", "cat"⟩,
   ⟨"k09", "F09", "A1", "cat"⟩, ⟨"k10", "F10", "A1", "cat"⟩,
   ⟨"k11", "F11", "A1", "cat"⟩, ⟨"k12", "F12", "A1", "cat"⟩,
   ⟨"k13", "F13", "A1", "cat"⟩, ⟨"k14", "F14", "A1", "cat"⟩,
   ⟨"k15", "F15", "A1", "cat"⟩, ⟨"k16", "F16", "A1", "cat"⟩,
   ⟨"k17", "F17", "A1", "cat"⟩, ⟨"k18", "F18", "A1", "cat"⟩,
   ⟨"k19", "F19", "A1", "cat"⟩, ⟨"k20", "F20", "A1", "cat"⟩,
   ⟨"k21", "F21", "A1", "cat"⟩, ⟨"k22", "F22", "A1", "cat"⟩,
   ⟨"k23", "F23", "A1", "cat"⟩, ⟨"k24", "F24", "A1", "cat"⟩,
   ⟨"k25", "F25", "A1", "cat"⟩, ⟨"k26", "F26", "A1", "cat"⟩,
   ⟨"k27", "F27", "A1", "cat"⟩, ⟨"k28", "F28", "A1", "cat"⟩,
   ⟨"k29", "F29", "A1", "cat"⟩, ⟨"k30", "F30", "A1", "cat"⟩,
   ⟨"k31", "F31", "A1", "cat"⟩, ⟨"k32", "F32", "A1", "cat"⟩,
   ⟨"k33", "F33", "A1", "cat"⟩, ⟨"k34", "F34", "A1", "cat"⟩,
   ⟨"k35", "F35", "A1", "cat"⟩, ⟨"k36", "F36", "A1", "cat"⟩,
   ⟨"k37", "F37", "A1", "cat"⟩, ⟨"k38", "F38", "A1", "cat"⟩,
   ⟨"k39", "F39", "A1", "cat"⟩, ⟨"k40", "F40", "A1", "cat"⟩]

/-- One content payload referencing the first 23 of the 40 features, so
that `covered = 23`, `gaps = 17`. -/
def c6Items : List LanguageFeatures :=
  [⟨some ["k01", "k02", "k03", "k04", "k05", "k06", "k07", "k08", "k09",
          "k10", "k11", "k12", "k13", "k14", "k15", "k16", "k17", "k18",
          "k19", "k20", "k21", "k22", "k23"]⟩]

/-- Two A1 features with zero references, for the stability check. -/
def c5Features : List FeatureRow :=
  [⟨"f1", "First", "A1", "cat"⟩, ⟨"f2", "Second", "A1", "cat"⟩]

/-- A feature catalog containing an unrecognized band string. -/
def c10Features : List FeatureRow :=
  [⟨"good", "Good", "A1", "cat"⟩, ⟨"weird", "Weird", "ZZ", "cat"⟩]

/-- Two content items in different bands, for the sampler witness. -/
def c7Items : List ContentItem :=
  [⟨1, "text", "t1", 3/2, "topic", 60, 100⟩,
   ⟨2, "audio", "t2", 8, "topic", 60, 50⟩]

/-! ## Helper lemmas: the resolver's recursion -/

/-- The sibling step of `buildTree`'s children loop: resolve one
prerequisite against the visited set left by the elder siblings, keep the
child if it is non-null. -/
def buildStep (fm : List GrammarFeature) (fuel depth : ℕ)
    (acc : List PrereqNode × List String) (prereqKey : String) :
    List PrereqNode × List String :=
  match buildTreeFuel fm fuel prereqKey (depth + 1) acc.2 with
  | (some child, v') => (acc.1 ++ [child], v')
  | (none, v') => (acc.1, v')

theorem buildTreeFuel_succ (fm : List GrammarFeature) (fuel : ℕ) (key : String)
    (depth : ℕ) (visited : List String) :
    buildTreeFuel fm (fuel+1) key depth visited =
      if depth > 10 ∨ key ∈ visited then (none, visited)
      else
        match featureLookup fm key with
        | none =>
            (some (.mk key "(not found in grammar_feature_map)" "unknown" []),
             key :: visited)
        | some f =>
            (some (.mk f.feature_key f.feature_name f.cefr_level
              (((f.prerequisites.getD []).foldl (buildStep fm fuel depth)
                ([], key :: visited)).1)),
             ((f.prerequisites.getD []).foldl (buildStep fm fuel depth)
               ([], key :: visited)).2) := rfl

/-- Fuel irrelevance: any two fuels above the depth-cap bound `11 - depth`
give the same traversal — the TS recursion, which has no fuel, terminates
with this common value. -/
theorem buildTreeFuel_congr (fm : List GrammarFeature) :
    ∀ (f₁ f₂ : ℕ) (key : String) (depth : ℕ) (visited : List String),
      11 - depth < f₁ → 11 - depth < f₂ →
      buildTreeFuel fm f₁ key depth visited = buildTreeFuel fm f₂ key depth visited := by
  intro f₁
  induction f₁ with
  | zero => intro f₂ key depth visited h1 _; exact absurd h1 (Nat.not_lt_zero _)
  | succ n ih =>
    intro f₂ key depth visited h1 h2
    match f₂, h2 with
    | 0, h2 => exact absurd h2 (Nat.not_lt_zero _)
    | m+1, h2 =>
      rw [buildTreeFuel_succ, buildTreeFuel_succ]
      by_cases hg : depth > 10 ∨ key ∈ visited
      · rw [if_pos hg, if_pos hg]
      · have hdep : depth ≤ 10 := Nat.le_of_not_lt fun h => hg (Or.inl h)
        have hstep : buildStep fm n depth = buildStep fm m depth := by
          funext acc pk
          unfold buildStep
          rw [ih m pk (depth+1) acc.2 (by omega) (by omega)]
        rw [if_neg hg, if_neg hg, hstep]

/-! ## The claims -/

/-- C1: the spec says `resolve("missing", {})` fails with `NotFound`.  The
code does not: `buildTree` returns a **placeholder root** for a missing
root key (depth 0, fresh visited set, so the `null` guard cannot fire),
hence the tool's `isError` branch is unreachable and the caller receives
an ok tree instead of the NotFound error. -/
theorem claim1_missing_root_not_an_error :
    cl_get_prerequisite_chain [] "missing" =
      .ok (.mk "missing" "(not found in grammar_feature_map)" "unknown" []) ∧
    (resolve [] "missing").isSome = true :=
  ⟨rfl, rfl⟩

/-- C2: the resolver terminates on every feature table — any two fuels
beyond the depth-cap bound give the same result, so the fuel-free TS
recursion is total — and on the cycle `{A: [B], B: [A]}` it returns root A
with the single child B whose child list is empty (the back-edge to A is
pruned by the visited set, not emitted as a node). -/
theorem claim2_terminates_and_prunes_cycle :
    (∀ (fm : List GrammarFeature) (key : String) (f₁ f₂ : ℕ),
        11 < f₁ → 11 < f₂ →
        (buildTreeFuel fm f₁ key 0 []).1 = (buildTreeFuel fm f₂ key 0 []).1) ∧
    resolve cycleTable "A" =
      some (.mk "A" "Feature A" "A1" [.mk "B" "Feature B" "A2" []]) := by
  constructor
  · intro fm key f₁ f₂ h1 h2
    rw [buildTreeFuel_congr fm f₁ f₂ key 0 [] (by omega) (by omega)]
  · rfl

theorem claim2_witness :
    (buildTreeFuel cycleTable 12 "A" 0 []).1 =
      (buildTreeFuel cycleTable 13 "A" 0 []).1 :=
  claim2_terminates_and_prunes_cycle.1 cycleTable "A" 12 13 (by decide) (by decide)

/-- C3: on a chain of 15 features each requiring the next, resolution
succeeds and the returned tree is the chain truncated at depth 10: exactly
10 levels below the root, the node past the cap silently pruned. -/
theorem claim3_depth_cap_chain15 :
    resolve chain15Table "f0" = some c3Tree ∧
    PrereqNode.heightFuel 12 c3Tree = 10 :=
  ⟨rfl, rfl⟩

/-- C4: a prerequisite key with no catalog entry yields a placeholder
leaf: name is the unresolved sentinel, band the `"unknown"` sentinel, and
its child list is empty. -/
theorem claim4_dangling_placeholder_leaf :
    resolve danglingTable "A" =
      some (.mk "A" "Feature A" "A1"
        [.mk "ghost" "(not found in grammar_feature_map)" "unknown" []]) :=
  rfl

/-- C9: a dangling key is added to the visited set when its placeholder is
emitted (the general equation), so a second reference to the same dangling
key is pruned: in `{A: [ghost, B], B: [ghost]}` only A's reference to
`ghost` produces a leaf, B's child list stays empty. -/
theorem claim9_dangling_key_visited_once :
    (∀ (fm : List GrammarFeature) (fuel : ℕ) (key : String) (depth : ℕ)
        (visited : List String),
        depth ≤ 10 → key ∉ visited → featureLookup fm key = none →
        buildTreeFuel fm (fuel+1) key depth visited =
          (some (.mk key "(not found in grammar_feature_map)" "unknown" []),
           key :: visited)) ∧
    resolve doubleDanglingTable "A" =
      some (.mk "A" "Feature A" "A1"
        [.mk "ghost" "(not found in grammar_feature_map)" "unknown" [],
         .mk "B" "Feature B" "A2" []]) := by
  constructor
  · intro fm fuel key depth visited hdep hvis hlk
    rw [buildTreeFuel_succ, if_neg (by push_neg; exact ⟨by omega, hvis⟩), hlk]
  · rfl

theorem claim9_witness :
    buildTreeFuel [] 1 "g" 0 [] =
      (some (.mk "g" "(not found in grammar_feature_map)" "unknown" []), ["g"]) :=
  claim9_dangling_key_visited_once.1 [] 0 "g" 0 [] (by decide) (by decide) rfl

/-- C8: the band mapping is total — every score lands in exactly the band
whose range contains it, with each boundary score in the lower band. -/
theorem claim8_band_totality :
    (∀ s : ℚ,
      (difficultyToCefr s = A1 ↔ s ≤ 2) ∧
      (difficultyToCefr s = A2 ↔ 2 < s ∧ s ≤ 7/2) ∧
      (difficultyToCefr s = B1 ↔ 7/2 < s ∧ s ≤ 5) ∧
      (difficultyToCefr s = B2 ↔ 5 < s ∧ s ≤ 7) ∧
      (difficultyToCefr s = C1 ↔ 7 < s ∧ s ≤ 9) ∧
      (difficultyToCefr s = C2 ↔ 9 < s)) ∧
    difficultyToCefr 2 = A1 ∧ difficultyToCefr (7/2) = A2 ∧
    difficultyToCefr 5 = B1 ∧ difficultyToCefr 7 = B2 ∧
    difficultyToCefr 9 = C1 := by
  refine ⟨?_, by with_unfolding_all decide, by with_unfolding_all decide,
    by with_unfolding_all decide, by with_unfolding_all decide,
    by with_unfolding_all decide⟩
  intro s
  unfold difficultyToCefr
  split_ifs with h1 h2 h3 h4 h5 <;>
    refine ⟨⟨?_, ?_⟩, ⟨?_, ?_⟩, ⟨?_, ?_⟩, ⟨?_, ?_⟩, ⟨?_, ?_⟩, ⟨?_, ?_⟩⟩ <;>
    intro h <;>
    first
      | rfl
      | exact absurd h (by decide)
      | linarith
      | (constructor <;> linarith)

/-! ## Helper lemmas: stability of a stable sort under a total preorder -/

theorem filter_orderedInsert_pos {α : Type} (r : α → α → Prop) [DecidableRel r]
    (p : α → Bool) (a : α) (ha : p a = true)
    (hcompat : ∀ b, p b = true → r a b) :
    ∀ l : List α, (l.orderedInsert r a).filter p = a :: l.filter p
  | [] => by simp [List.orderedInsert, ha]
  | b :: l => by
    by_cases hr : r a b
    · simp only [List.orderedInsert, if_pos hr]
      rw [List.filter_cons_of_pos ha]
    · simp only [List.orderedInsert, if_neg hr]
      have hpb : p b = false := by
        cases hpb : p b
        · rfl
        · exact absurd (hcompat b hpb) hr
      rw [List.filter_cons_of_neg (by simp [hpb]),
        List.filter_cons_of_neg (by simp [hpb])]
      exact filter_orderedInsert_pos r p a ha hcompat l

theorem filter_orderedInsert_neg {α : Type} (r : α → α → Prop) [DecidableRel r]
    (p : α → Bool) (a : α) (ha : p a = false) :
    ∀ l : List α, (l.orderedInsert r a).filter p = l.filter p
  | [] => by simp [List.orderedInsert, ha]
  | b :: l => by
    by_cases hr : r a b
    · simp only [List.orderedInsert, if_pos hr]
      rw [List.filter_cons_of_neg (by simp [ha])]
    · simp only [List.orderedInsert, if_neg hr]
      cases hpb : p b
      · rw [List.filter_cons_of_neg (by simp [hpb]),
          List.filter_cons_of_neg (by simp [hpb])]
        exact filter_orderedInsert_neg r p a ha l
      · rw [List.filter_cons_of_pos hpb, List.filter_cons_of_pos hpb,
          filter_orderedInsert_neg r p a ha l]

/-- A stable sort leaves the subsequence of elements selected by any
predicate that only keeps mutually tied elements untouched. -/
theorem filter_insertionSort_eq {α : Type} (r : α → α → Prop) [DecidableRel r]
    (p : α → Bool) (hcompat : ∀ a b, p a = true → p b = true → r a b) :
    ∀ l : List α, (l.insertionSort r).filter p = l.filter p
  | [] => rfl
  | a :: l => by
    rw [List.insertionSort]
    cases hpa : p a
    · rw [filter_orderedInsert_neg r p a hpa, filter_insertionSort_eq r p hcompat l,
        List.filter_cons_of_neg (by simp [hpa])]
    · rw [filter_orderedInsert_pos r p a hpa (fun b hb => hcompat a b hpa hb),
        filter_insertionSort_eq r p hcompat l, List.filter_cons_of_pos hpa]

/-- In a report sorted by the comparator, a row whose band has rank `-1`
cannot follow a row with a recognized band. -/
theorem sorted_unrec_before_rec (l : List CoverageRow)
    (hsorted : List.Sorted rowLe l) (hneg : ∀ level, level ∉ cefrOrder → rankOf level = -1)
    (hpos : ∀ level, level ∈ cefrOrder → 0 ≤ rankOf level) :
    ∀ (i j : ℕ) (hi : i < l.length) (hj : j < l.length),
      (l.get ⟨i, hi⟩).cefr_level ∉ cefrOrder →
      (l.get ⟨j, hj⟩).cefr_level ∈ cefrOrder → i < j := by
  intro i j hi hj hni hmj
  by_contra hij
  push_neg at hij
  rcases Nat.eq_or_lt_of_le hij with heq | hlt
  · subst heq
    exact hni hmj
  · have hrel : rowLe (l.get ⟨j, hj⟩) (l.get ⟨i, hi⟩) :=
      hsorted.rel_get_of_lt hlt
    have h1 : rankOf ((l.get ⟨i, hi⟩).cefr_level) = -1 := hneg _ hni
    have h2 : 0 ≤ rankOf ((l.get ⟨j, hj⟩).cefr_level) := hpos _ hmj
    unfold rowLe keyLe rowKey at hrel
    omega

/-- C5: the report's row sequence is sorted by the comparator's key (band
rank, then content count), the sort is stable — the rows of any fixed key
keep exactly their order from the unsorted feature sequence — and on two
zero-coverage A1 features `f1` before `f2` the output keeps `f1` first. -/
theorem claim5_sorted_and_stable :
    (∀ (features : List FeatureRow) (contentRows : List LanguageFeatures),
      List.Sorted rowLe (cl_coverage_report features contentRows).features) ∧
    (∀ (features : List FeatureRow) (contentRows : List LanguageFeatures)
        (K : ℤ × ℕ),
      ((cl_coverage_report features contentRows).features.filter
          (fun row => rowKey row == K)) =
        ((coverageRows features contentRows).filter
          (fun row => rowKey row == K))) ∧
    (cl_coverage_report c5Features []).features =
      [⟨"f1", "First", "A1", "cat", 0, true⟩,
       ⟨"f2", "Second", "A1", "cat", 0, true⟩] := by
  refine ⟨fun features contentRows => ?_, fun features contentRows K => ?_, by decide⟩
  · exact List.sorted_insertionSort rowLe (coverageRows features contentRows)
  · refine filter_insertionSort_eq rowLe _ (fun a b ha hb => ?_)
      (coverageRows features contentRows)
    have ha' : rowKey a = K := by simpa using ha
    have hb' : rowKey b = K := by simpa using hb
    unfold rowLe keyLe
    rw [ha', hb']
    exact Or.inr ⟨rfl, le_refl _⟩

/-- C10: a band string outside the six recognized values gets rank `-1`
from the comparator's `indexOf`, and therefore every such row precedes
every row whose band is recognized in the sorted report. -/
theorem claim10_unrecognized_band_sorts_first :
    (∀ level : String, level ∉ cefrOrder → rankOf level = -1) ∧
    (∀ (features : List FeatureRow) (contentRows : List LanguageFeatures)
        (i j : ℕ)
        (hi : i < (cl_coverage_report features contentRows).features.length)
        (hj : j < (cl_coverage_report features contentRows).features.length),
        ((cl_coverage_report features contentRows).features.get ⟨i, hi⟩).cefr_level ∉ cefrOrder →
        ((cl_coverage_report features contentRows).features.get ⟨j, hj⟩).cefr_level ∈ cefrOrder →
        i < j) := by
  have hneg : ∀ level : String, level ∉ cefrOrder → rankOf level = -1 := by
    intro level h
    simp only [cefrOrder, List.mem_cons, List.not_mem_nil, or_false, not_or] at h
    obtain ⟨h1, h2, h3, h4, h5, h6⟩ := h
    simp [rankOf, h1, h2, h3, h4, h5, h6]
  have hpos : ∀ level : String, level ∈ cefrOrder → 0 ≤ rankOf level := by
    intro level h
    simp only [cefrOrder, List.mem_cons, List.not_mem_nil, or_false] at h
    rcases h with h | h | h | h | h | h <;> subst h <;> decide
  refine ⟨hneg, fun features contentRows i j hi hj hni hmj => ?_⟩
  exact sorted_unrec_before_rec (cl_coverage_report features contentRows).features
    (List.sorted_insertionSort rowLe (coverageRows features contentRows))
    hneg hpos i j hi hj hni hmj

theorem claim10_witness : rankOf "ZZ" = -1 ∧ (0 : ℕ) < 1 :=
  ⟨claim10_unrecognized_band_sorts_first.1 "ZZ" (by decide),
   claim10_unrecognized_band_sorts_first.2 c10Features [] 0 1
    (by decide) (by decide) (by decide) (by decide)⟩

/-- C6 counterexample: a catalog of 40 features with 23 covered.  The
code's double arithmetic produces 57 (`(23/40)*100` rounds below 57.5),
while the claim's exact round-half-up of `100·23/40 = 57.5` gives 58. -/
theorem claim6_percent_counterexample :
    (cl_coverage_report c6Features c6Items).summary.total_features = 40 ∧
    (cl_coverage_report c6Features c6Items).summary.covered = 23 ∧
    (cl_coverage_report c6Features c6Items).summary.gaps = 17 ∧
    (cl_coverage_report c6Features c6Items).summary.coverage_percent = 57 ∧
    specCoveragePercent 23 40 = 58 :=
  ⟨by decide, by decide, by decide, by decide, by with_unfolding_all decide⟩

/-- C6 amended: `covered + gaps = total` always, `total` is the catalog
size, an empty catalog yields the all-zero report without error, and for
`total > 0` the percentage is the IEEE-754 double evaluation of
`Math.round((covered/total)*100)` — which can differ by one from the
spec's exact round-half-up, as the counterexample shows. -/
theorem claim6_summary_invariants :
    ∀ (features : List FeatureRow) (contentRows : List LanguageFeatures),
      (cl_coverage_report features contentRows).summary.covered +
          (cl_coverage_report features contentRows).summary.gaps =
        (cl_coverage_report features contentRows).summary.total_features ∧
      (cl_coverage_report features contentRows).summary.total_features =
        features.length ∧
      ((cl_coverage_report features contentRows).summary.total_features = 0 →
        (cl_coverage_report features contentRows).summary.coverage_percent = 0) ∧
      (features = [] →
        cl_coverage_report features contentRows = ⟨⟨0, 0, 0, 0⟩, []⟩) ∧
      (0 < (cl_coverage_report features contentRows).summary.total_features →
        (cl_coverage_report features contentRows).summary.coverage_percent =
          doublePercent (cl_coverage_report features contentRows).summary.covered
            (cl_coverage_report features contentRows).summary.total_features) := by
  intro features contentRows
  have hgap :
      ((List.insertionSort rowLe (coverageRows features contentRows)).filter
          (fun r => r.is_gap)).length ≤
        (List.insertionSort rowLe (coverageRows features contentRows)).length :=
    List.length_filter_le _ _
  refine ⟨?_, ?_, ?_, ?_, ?_⟩
  · show (List.insertionSort rowLe (coverageRows features contentRows)).length -
        ((List.insertionSort rowLe (coverageRows features contentRows)).filter
          (fun r => r.is_gap)).length +
        ((List.insertionSort rowLe (coverageRows features contentRows)).filter
          (fun r => r.is_gap)).length =
      (List.insertionSort rowLe (coverageRows features contentRows)).length
    omega
  · show (List.insertionSort rowLe (coverageRows features contentRows)).length =
      features.length
    rw [List.length_insertionSort]
    simp [coverageRows]
  · intro h0
    have h0' : (List.insertionSort rowLe (coverageRows features contentRows)).length = 0 := h0
    show (if (List.insertionSort rowLe (coverageRows features contentRows)).length > 0
        then doublePercent _ _ else 0) = 0
    rw [if_neg (by omega)]
  · intro hfe
    subst hfe
    rfl
  · intro hpos
    have hpos' : 0 < (List.insertionSort rowLe (coverageRows features contentRows)).length := hpos
    show (if (List.insertionSort rowLe (coverageRows features contentRows)).length > 0
        then doublePercent
          ((List.insertionSort rowLe (coverageRows features contentRows)).length -
            ((List.insertionSort rowLe (coverageRows features contentRows)).filter
              (fun r => r.is_gap)).length)
          (List.insertionSort rowLe (coverageRows features contentRows)).length
        else 0) = doublePercent _ _
    rw [if_pos hpos']
    rfl

theorem claim6_witness :
    (cl_coverage_report ([] : List FeatureRow) []).summary.coverage_percent = 0 ∧
    (cl_coverage_report c6Features c6Items).summary.coverage_percent =
      doublePercent (cl_coverage_report c6Features c6Items).summary.covered
        (cl_coverage_report c6Features c6Items).summary.total_features ∧
    cl_coverage_report ([] : List FeatureRow) [] = ⟨⟨0, 0, 0, 0⟩, []⟩ :=
  ⟨(claim6_summary_invariants [] []).2.2.1 (by decide),
   (claim6_summary_invariants c6Features c6Items).2.2.2.2 (by decide),
   (claim6_summary_invariants [] []).2.2.2.1 rfl⟩

/-! ## Helper lemmas: the stratified sampler's per-band chunks -/

theorem filter_band_take_self (rows : List ContentItem) (cap : ℕ) (b : CefrLevel) :
    ((((rows.filter (fun r => bandOfItem r == b)).insertionSort
        itemLeCreated).take cap).filter (fun r => bandOfItem r == b)) =
      (((rows.filter (fun r => bandOfItem r == b)).insertionSort
        itemLeCreated).take cap) := by
  rw [List.filter_eq_self]
  intro x hx
  have hx2 : x ∈ rows.filter (fun r => bandOfItem r == b) :=
    (List.mem_insertionSort itemLeCreated).1 (List.mem_of_mem_take hx)
  exact (List.mem_filter.1 hx2).2

theorem filter_band_take_ne (rows : List ContentItem) (cap : ℕ) (b c : CefrLevel)
    (hne : c ≠ b) :
    ((((rows.filter (fun r => bandOfItem r == c)).insertionSort
        itemLeCreated).take cap).filter (fun r => bandOfItem r == b)) = [] := by
  rw [List.filter_eq_nil_iff]
  intro x hx hpx
  have hx2 : x ∈ rows.filter (fun r => bandOfItem r == c) :=
    (List.mem_insertionSort itemLeCreated).1 (List.mem_of_mem_take hx)
  have hc : bandOfItem x = c := by simpa using (List.mem_filter.1 hx2).2
  have hb : bandOfItem x = b := by simpa using hpx
  exact hne (hc.symm.trans hb)

theorem filter_flatten_not_mem (rows : List ContentItem) (cap : ℕ) (b : CefrLevel) :
    ∀ (bs : List CefrLevel), b ∉ bs →
      (((bs.map (fun c => ((rows.filter (fun r => bandOfItem r == c)).insertionSort
          itemLeCreated).take cap)).flatten).filter (fun r => bandOfItem r == b)) = []
  | [], _ => rfl
  | c :: cs, hb => by
    rw [List.map_cons, List.flatten_cons, List.filter_append,
      filter_band_take_ne rows cap b c
        (fun h => hb (by rw [← h]; exact List.mem_cons_self c cs)),
      List.nil_append]
    exact filter_flatten_not_mem rows cap b cs (fun h => hb (List.mem_cons_of_mem c h))

theorem filter_flatten_mem (rows : List ContentItem) (cap : ℕ) (b : CefrLevel) :
    ∀ (bs : List CefrLevel), bs.Nodup → b ∈ bs →
      (((bs.map (fun c => ((rows.filter (fun r => bandOfItem r == c)).insertionSort
          itemLeCreated).take cap)).flatten).filter (fun r => bandOfItem r == b)) =
        ((rows.filter (fun r => bandOfItem r == b)).insertionSort
          itemLeCreated).take cap
  | [], _, hmem => absurd hmem (List.not_mem_nil b)
  | c :: cs, hnd, hmem => by
    rw [List.map_cons, List.flatten_cons, List.filter_append]
    by_cases hcb : c = b
    · subst hcb
      rw [filter_band_take_self rows cap c,
        filter_flatten_not_mem rows cap c cs (List.nodup_cons.1 hnd).1,
        List.append_nil]
    · rw [filter_band_take_ne rows cap b c hcb, List.nil_append]
      have hmem' : b ∈ cs := by
        rcases List.mem_cons.1 hmem with h | h
        · exact absurd h.symm hcb
        · exact h
      exact filter_flatten_mem rows cap b cs (List.nodup_cons.1 hnd).2 hmem'

/-- C7: for every candidate set and `totalLimit ≥ 1`, each band
contributes exactly the first `ceil(limit/6)` of its candidates ordered by
creation time (as a permutation inside the final presentation order), so
each band has at most `ceil(limit/6)` rows in the result, the whole result
has at most `6 · ceil(limit/6)` rows, and an empty candidate set yields an
empty result. -/
theorem claim7_sampler_caps :
    ∀ (rows : List ContentItem) (limit : ℕ), 1 ≤ limit →
      ((stratifiedSample rows limit).length ≤ 6 * ((limit + 5) / 6) ∧
       (∀ b : CefrLevel,
          ((stratifiedSample rows limit).filter (fun r => bandOfItem r == b)).Perm
            (((rows.filter (fun r => bandOfItem r == b)).insertionSort
              itemLeCreated).take ((limit + 5) / 6)) ∧
          ((stratifiedSample rows limit).filter (fun r => bandOfItem r == b)).length ≤
            (limit + 5) / 6) ∧
       stratifiedSample [] limit = []) := by
  intro rows limit _
  have hchunk : ∀ (l : List ContentItem), (l.take ((limit + 5) / 6)).length ≤ (limit + 5) / 6 :=
    fun l => by rw [List.length_take]; exact Nat.min_le_left _ _
  have hband : ∀ b : CefrLevel,
      ((stratifiedSample rows limit).filter (fun r => bandOfItem r == b)).Perm
        (((rows.filter (fun r => bandOfItem r == b)).insertionSort
          itemLeCreated).take ((limit + 5) / 6)) := by
    intro b
    have hperm :
        (stratifiedSample rows limit).Perm
          ((CEFR_LEVELS.map (fun c => ((rows.filter (fun r => bandOfItem r == c)).insertionSort
            itemLeCreated).take ((limit + 5) / 6))).flatten) :=
      List.perm_insertionSort itemLeDiffCreated _
    refine (hperm.filter _).trans ?_
    rw [filter_flatten_mem rows ((limit + 5) / 6) b CEFR_LEVELS (by decide)
      (by cases b <;> decide)]
  refine ⟨?_, fun b => ⟨hband b, ?_⟩, ?_⟩
  · have h1 := hchunk ((rows.filter (fun r => bandOfItem r == A1)).insertionSort itemLeCreated)
    have h2 := hchunk ((rows.filter (fun r => bandOfItem r == A2)).insertionSort itemLeCreated)
    have h3 := hchunk ((rows.filter (fun r => bandOfItem r == B1)).insertionSort itemLeCreated)
    have h4 := hchunk ((rows.filter (fun r => bandOfItem r == B2)).insertionSort itemLeCreated)
    have h5 := hchunk ((rows.filter (fun r => bandOfItem r == C1)).insertionSort itemLeCreated)
    have h6 := hchunk ((rows.filter (fun r => bandOfItem r == C2)).insertionSort itemLeCreated)
    simp only [stratifiedSample, List.length_insertionSort, CEFR_LEVELS,
      List.map_cons, List.map_nil, List.flatten_cons, List.flatten_nil,
      List.length_append, List.length_nil]
    omega
  · rw [(hband b).length_eq]
    exact hchunk _
  · simp [stratifiedSample, CEFR_LEVELS, List.insertionSort]

theorem claim7_witness :
    (stratifiedSample c7Items 6).length ≤ 6 * ((6 + 5) / 6) :=
  ((claim7_sampler_caps c7Items 6 (by decide)).1)

end ChaosLimba
